import Mathlib

/-!
Verification development for the property-binding layer in `tp/qt/mvc.py`.

The Python module is embedded shallowly: Qt widgets become a `Widget` record
holding their side-channel tags, internal value store and signal state;
the `Model` object's mutable attributes become a `ModelState` record, and each
method becomes a Lean function from state to state, paired with the list of
observable events (log warnings, listener invocations) it emits and an
optional Python exception it raises.  Python values flowing through the
binding layer are modelled by the inductive `Val`.
-/

set_option autoImplicit false

namespace Mvc

/-- Python values that travel through the binding layer. -/
inductive Val where
  | none
  | int (n : Int)
  | str (s : String)
  | bool (b : Bool)
deriving DecidableEq, Repr

/-- Concrete widget classes.  The capability table `SUPPORT_WIDGET_TYPES`
keys on the exact runtime type, so the embedding enumerates the classes that
appear in the table and folds every other class into `unsupported`. -/
inductive WType where
  | QCheckBox
  | QLineEdit
  | QComboBox
  | QProgressBar
  | BaseCheckBoxWidget
  | BaseComboBox
  | ComboBoxRegularWidget
  | ComboBoxSearchableWidget
  | RadioButtonGroup
  | SearchLineEdit
  | BaseLineEdit
  | StringLineEditWidget
  | FloatLineEditWidget
  | IntLineEditWidget
  | StringEdit
  | IntEdit
  | FloatEdit
  | BaseLabel
  | unsupported (tag : Nat)
deriving DecidableEq, Repr

/-- Getter and setter accessor names for one facet of a widget
(`UiPropertyGetSet` in the source). -/
structure UiPropertyGetSet where
  getter : String
  setter : String
deriving DecidableEq, Repr

/-- Per-widget-type update information (`UiPropertyWidgetUpdate`). -/
structure UiPropertyWidgetUpdate where
  save_signal : String
  getsets : List UiPropertyGetSet := []
  skip_children : Bool := true
deriving DecidableEq, Repr

/-- A registered UI property (`UiProperty`).  Python's `setattr` can attach
auxiliary facet fields to the dataclass instance at runtime; those live in
`extra`.  The dataclass `type` tag is never read by the engine. -/
structure UiProperty where
  name : String
  value : Val := Val.none
  default : Val := Val.none
  extra : List (String × Val) := []
deriving DecidableEq, Repr

/-- A Qt widget as seen by the binding engine: identity, exact runtime type,
the two side-channel tags (`"prop"` and `"extraProperties"`), an internal
store mapping getter names to current values, the set of setter names whose
invocation raises `TypeError` (modelling an argument/type mismatch), the
signal-block flag and whether the save signal has been connected. -/
structure Widget where
  id : Nat
  wtype : WType
  prop : Option String := Option.none
  extraProps : List (String × String) := []
  store : List (String × Val) := []
  failSet : List String := []
  signalsBlocked : Bool := false
  connected : Bool := false
deriving DecidableEq, Repr

/-- Observable events: a logged warning identifying a widget and a property
name, or a listener callback invoked with a value.  Listeners are identified
by numeric ids. -/
inductive Event where
  | warn (wid : Nat) (propName : Option String)
  | call (listener : Nat) (v : Val)
deriving DecidableEq, Repr

/-- Python exceptions that the engine can raise. -/
inductive PyErr where
  | typeError (wname : Option String) (setter : String) (v : Val)
  | keyError (k : Option String)
  | attrError (a : String)
deriving DecidableEq, Repr

/-! ### Insertion-ordered string-keyed dictionaries

Python `dict` is modelled as an association list with unique keys in
insertion order; overwriting keeps the original position, as `dict` does. -/

/-- Lookup in an insertion-ordered dictionary. -/
def dictGet {α : Type} (m : List (String × α)) (k : String) : Option α :=
  match m with
  | [] => Option.none
  | (k', v) :: rest => if k' = k then some v else dictGet rest k

/-- `m[k] = v`: replace in place if the key exists, else append. -/
def dictInsert {α : Type} (m : List (String × α)) (k : String) (v : α) :
    List (String × α) :=
  match m with
  | [] => [(k, v)]
  | (k', v') :: rest =>
      if k' = k then (k, v) :: rest else (k', v') :: dictInsert rest k v

/-- Mutate the value stored at `k` in place (models attribute assignment on
the record object held in the dictionary). -/
def dictModify {α : Type} (m : List (String × α)) (k : String) (f : α → α) :
    List (String × α) :=
  match m with
  | [] => []
  | (k', v) :: rest =>
      if k' = k then (k', f v) :: rest else (k', v) :: dictModify rest k f

/-- The keys of the dictionary are pairwise distinct. -/
def keysNodup {α : Type} (m : List (String × α)) : Prop :=
  (m.map Prod.fst).Nodup

/-! ### The widget capability table -/

/-- `SUPPORT_WIDGET_TYPES`: the static mapping from exact widget type to its
accessor/signal contract. -/
def SUPPORT_WIDGET_TYPES : WType → Option UiPropertyWidgetUpdate
  | .QCheckBox => some ⟨"toggled", [⟨"isChecked", "setChecked"⟩], true⟩
  | .QLineEdit => some ⟨"textChanged", [⟨"text", "setText"⟩], true⟩
  | .QComboBox => some ⟨"itemChanged", [⟨"currentIndex", "setCurrentIndex"⟩], true⟩
  | .QProgressBar => some ⟨"valueChanged", [⟨"value", "setValue"⟩], true⟩
  | .BaseCheckBoxWidget => some ⟨"stateChanged", [⟨"isChecked", "setChecked"⟩], true⟩
  | .BaseComboBox => some ⟨"currentIndexChanged", [⟨"currentIndex", "setCurrentIndex"⟩], true⟩
  | .ComboBoxRegularWidget => some ⟨"itemChanged", [⟨"current_index", "set_index"⟩], true⟩
  | .ComboBoxSearchableWidget => some ⟨"itemChanged", [⟨"current_index", "set_index"⟩], true⟩
  | .RadioButtonGroup => some ⟨"toggled", [⟨"checked_index", "set_checked"⟩], true⟩
  | .SearchLineEdit => some ⟨"textChanged", [⟨"text", "setText"⟩], true⟩
  | .BaseLineEdit => some ⟨"textChanged", [⟨"text", "setText"⟩], true⟩
  | .StringLineEditWidget => some ⟨"textChanged", [⟨"text", "set_text"⟩], true⟩
  | .FloatLineEditWidget => some ⟨"textChanged", [⟨"value", "set_value"⟩], true⟩
  | .IntLineEditWidget => some ⟨"textChanged", [⟨"value", "set_value"⟩], true⟩
  | .StringEdit => some ⟨"textChanged", [⟨"text", "set_text"⟩], true⟩
  | .IntEdit => some ⟨"textChanged", [⟨"text", "set_text"⟩], true⟩
  | .FloatEdit => some ⟨"textChanged", [⟨"text", "set_text"⟩], true⟩
  | .BaseLabel => some ⟨"textChanged", [⟨"text", "setText"⟩], true⟩
  | .unsupported _ => Option.none

/-! ### Attribute access on `UiProperty` records and widgets -/

/-- `getattr(record, k)`: the canonical `value` and `default` fields are
declared on the dataclass; any other attribute must have been attached by a
previous `setattr` (stored in `extra`), otherwise `AttributeError`. -/
def UiProperty.getattr_field (r : UiProperty) (k : String) : Except PyErr Val :=
  if k = "value" then .ok r.value
  else if k = "default" then .ok r.default
  else
    match dictGet r.extra k with
    | some v => .ok v
    | Option.none => .error (.attrError k)

/-- `setattr(record, k, v)`. -/
def UiProperty.setattr_field (r : UiProperty) (k : String) (v : Val) : UiProperty :=
  if k = "value" then { r with value := v }
  else if k = "default" then { r with default := v }
  else { r with extra := dictInsert r.extra k v }

/-- Calling the getter method named `g` on a widget reads its store. -/
def getterCall (w : Widget) (g : String) : Val :=
  (dictGet w.store g).getD Val.none

/-- The model state: the widget registry (`self._widgets`), the property
registry (`self._properties`), the listener table (`self._listeners`) and
the two flags. -/
structure ModelState where
  widgets : List Widget
  properties : List (String × UiProperty)
  listeners : List (String × List Nat)
  show_warnings : Bool := true
  block_save : Bool := false
deriving DecidableEq, Repr

/-- `Model.widget_property_name`: reads the widget's `"prop"` tag. -/
def widget_property_name (w : Widget) : Option String :=
  w.prop

/-- Populate a record's `default` from `value` when no explicit default was
given — the in-place mutation performed by the loop of `setup_properties`. -/
def fixDefault (p : UiProperty) : UiProperty :=
  if p.default = Val.none then { p with default := p.value } else p

/-- `Model.setup_properties`: builds the name-keyed property registry from an
ordered list, defaulting `default` from `value`. -/
def setup_properties (props : List UiProperty) : List (String × UiProperty) :=
  props.foldl (fun acc p => dictInsert acc p.name (fixDefault p)) []

/-- `Model.link_property`. -/
def link_property (s : ModelState) (w : Widget) (ui_property_name : String) :
    ModelState × List Event × Bool :=
  if s.widgets.any (fun x => x.id == w.id) then (s, [], false)
  else
    match SUPPORT_WIDGET_TYPES w.wtype with
    | some _ =>
        let w' := { w with connected := true, prop := some ui_property_name }
        ({ s with widgets := s.widgets ++ [w'] }, [], true)
    | Option.none =>
        if s.show_warnings then
          (s, [Event.warn w.id (some ui_property_name)], false)
        else
          let w' := { w with prop := some ui_property_name }
          ({ s with widgets := s.widgets ++ [w'] }, [], true)

/-- `Model.property_widgets`. -/
def property_widgets (s : ModelState) : List Widget :=
  s.widgets

/-- `Model.widgets_linked_to_property`: linear scan filtering on the
`"prop"` tag. -/
def widgets_linked_to_property (s : ModelState) (property_name : String) :
    List Widget :=
  s.widgets.filter (fun w => w.prop == some property_name)

/-! ### `Model.update_widget` -/

/-- The getset loop of `update_widget`: facet index 0 reads the property's
`value` field, later indices read the auxiliary field named after the
getter; each value is written through the widget's setter, which raises
`TypeError` when it rejects the value. -/
def updateLoop (props : List (String × UiProperty)) (wname : Option String) :
    Widget → List UiPropertyGetSet → Nat → Widget × Option PyErr
  | w, [], _ => (w, Option.none)
  | w, gs :: rest, i =>
    let propKey := if i = 0 then "value" else gs.getter
    match wname with
    | Option.none => (w, some (.keyError Option.none))
    | some nm =>
      match dictGet props nm with
      | Option.none => (w, some (.keyError (some nm)))
      | some r =>
        match r.getattr_field propKey with
        | .error e => (w, some e)
        | .ok value =>
          if gs.setter ∈ w.failSet then
            (w, some (.typeError wname gs.setter value))
          else
            updateLoop props wname
              { w with store := dictInsert w.store gs.getter value } rest (i + 1)

/-- `Model.update_widget`: pushes the linked property's facet values into the
widget; warns (when enabled) if the widget type is unsupported. -/
def update_widget (props : List (String × UiProperty)) (show_warnings : Bool)
    (w : Widget) : Widget × List Event × Option PyErr :=
  let wname := widget_property_name w
  match SUPPORT_WIDGET_TYPES w.wtype with
  | some info =>
    let r := updateLoop props wname w info.getsets 0
    match r.2 with
    | some e => (r.1, [], some e)
    | Option.none =>
      if info.getsets.isEmpty && show_warnings then
        (r.1, [Event.warn w.id wname], Option.none)
      else (r.1, [], Option.none)
  | Option.none =>
    if show_warnings then (w, [Event.warn w.id wname], Option.none)
    else (w, [], Option.none)

/-- The update loop of `update_widgets_from_properties`: updates every
captured widget in order, accumulating the already-processed prefix; an
exception aborts the loop, leaving the remaining widgets untouched. -/
def updateLoopAcc (props : List (String × UiProperty)) (show_warnings : Bool) :
    List Widget → List Widget → List Widget × List Event × Option PyErr
  | done, [] => (done, [], Option.none)
  | done, w :: rest =>
    let r := update_widget props show_warnings w
    match r.2.2 with
    | some e => (done ++ r.1 :: rest, r.2.1, some e)
    | Option.none =>
      let rec2 := updateLoopAcc props show_warnings (done ++ [r.1]) rest
      (rec2.1, r.2.1 ++ rec2.2.1, rec2.2.2)

/-- The update loop of `update_widget_from_property`: same as
`updateLoopAcc` but only the widgets whose `"prop"` tag equals `name` are
updated (the captured `widgets_linked_to_property` list). -/
def updateLinkedAcc (props : List (String × UiProperty)) (show_warnings : Bool)
    (name : String) :
    List Widget → List Widget → List Widget × List Event × Option PyErr
  | done, [] => (done, [], Option.none)
  | done, w :: rest =>
    if w.prop == some name then
      let r := update_widget props show_warnings w
      match r.2.2 with
      | some e => (done ++ r.1 :: rest, r.2.1, some e)
      | Option.none =>
        let rec2 := updateLinkedAcc props show_warnings name (done ++ [r.1]) rest
        (rec2.1, r.2.1 ++ rec2.2.1, rec2.2.2)
    else
      let rec2 := updateLinkedAcc props show_warnings name (done ++ [w]) rest
      (rec2.1, rec2.2.1, rec2.2.2)

/-- `Model.update_widget_from_property`: sets `block_save`, updates the
widgets linked to the property, re-enables their signals in a second pass,
then clears `block_save`.  There is no `finally` here: an exception escapes
with `block_save` still set. -/
def update_widget_from_property (s : ModelState) (ui_property_name : String) :
    ModelState × List Event × Option PyErr :=
  let r := updateLinkedAcc s.properties s.show_warnings ui_property_name [] s.widgets
  match r.2.2 with
  | some e => ({ s with widgets := r.1, block_save := true }, r.2.1, some e)
  | Option.none =>
    let ws2 := r.1.map fun w =>
      if w.prop == some ui_property_name then { w with signalsBlocked := false } else w
    ({ s with widgets := ws2, block_save := false }, r.2.1, Option.none)

/-- `Model.update_widgets_from_properties`: same two-phase update over all
widgets, with the `block_save` reset inside a `finally`, so the flag is
cleared on every exit path. -/
def update_widgets_from_properties (s : ModelState) :
    ModelState × List Event × Option PyErr :=
  let r := updateLoopAcc s.properties s.show_warnings [] s.widgets
  match r.2.2 with
  | some e => ({ s with widgets := r.1, block_save := false }, r.2.1, some e)
  | Option.none =>
    let ws2 := r.1.map fun w => { w with signalsBlocked := false }
    ({ s with widgets := ws2, block_save := false }, r.2.1, Option.none)

/-! ### `Model.widget_values` and `Model.save_properties` -/

/-- The getset loop of `widget_values`, building the facet dictionary:
index 0 is stored under `"value"`, later entries under their getter name. -/
def buildVals (w : Widget) :
    List UiPropertyGetSet → Nat → List (String × Val) → List (String × Val)
  | [], _, acc => acc
  | gs :: rest, i, acc =>
    let key := if i = 0 then "value" else gs.getter
    buildVals w rest (i + 1) (dictInsert acc key (getterCall w gs.getter))

/-- `Model.widget_values`: reads every facet of the widget plus the optional
`"extraProperties"` side-channel accessors; unsupported widget types yield an
empty mapping and a warning. -/
def widget_values (show_warnings : Bool) (w : Widget) :
    List Event × List (String × Val) :=
  match SUPPORT_WIDGET_TYPES w.wtype with
  | some info =>
    let base := buildVals w info.getsets 0 []
    let merged := w.extraProps.foldl
      (fun acc kv => dictInsert acc kv.1 (getterCall w kv.2)) base
    ([], merged)
  | Option.none =>
    (if show_warnings then [Event.warn w.id w.prop] else [], [])

/-- Apply a facet dictionary to a property record with successive
`setattr` calls. -/
def applyVals (r : UiProperty) (vals : List (String × Val)) : UiProperty :=
  vals.foldl (fun acc kv => acc.setattr_field kv.1 kv.2) r

/-- The `setattr(self.properties[property_name], k, v)` loop of
`save_properties`: `self.properties[property_name]` is looked up for each
facet, so an empty facet dictionary performs no lookup at all, while a
missing key raises `KeyError` before any write. -/
def applySetattrs (props : List (String × UiProperty)) (pname : Option String)
    (vals : List (String × Val)) : Except PyErr (List (String × UiProperty)) :=
  match vals with
  | [] => .ok props
  | _ :: _ =>
    match pname with
    | Option.none => .error (.keyError Option.none)
    | some nm =>
      match dictGet props nm with
      | Option.none => .error (.keyError (some nm))
      | some _ => .ok (dictModify props nm (fun r => applyVals r vals))

/-- `self._listeners.get(property_name, [])` with a possibly-`None` key. -/
def listenersAt (listeners : List (String × List Nat)) (pname : Option String) :
    List Nat :=
  match pname with
  | Option.none => []
  | some nm => (dictGet listeners nm).getD []

/-- The widget loop of `save_properties`: per widget, read the facet values,
write each onto the linked property record, then invoke every listener of
that property once per `"value"` facet entry. -/
def saveLoop (listeners : List (String × List Nat)) (show_warnings : Bool) :
    List Widget → List (String × UiProperty) →
    List (String × UiProperty) × List Event × Option PyErr
  | [], props => (props, [], Option.none)
  | w :: rest, props =>
    let wv := widget_values show_warnings w
    match applySetattrs props w.prop wv.2 with
    | .error e => (props, wv.1, some e)
    | .ok props' =>
      let callEvs := (listenersAt listeners w.prop).flatMap fun lid =>
        wv.2.filterMap fun kv =>
          if kv.1 = "value" then some (Event.call lid kv.2) else Option.none
      let rec2 := saveLoop listeners show_warnings rest props'
      (rec2.1, wv.1 ++ callEvs ++ rec2.2.1, rec2.2.2)

/-- `Model.save_properties`: a no-op while `block_save` is set; otherwise
runs the widget loop over the registry in insertion order. -/
def save_properties (s : ModelState) : ModelState × List Event × Option PyErr :=
  if s.block_save then (s, [], Option.none)
  else
    let r := saveLoop s.listeners s.show_warnings s.widgets s.properties
    ({ s with properties := r.1 }, r.2.1, r.2.2)

/-- `Model.update_property`: a no-op for an unregistered name; otherwise
writes the value, refreshes the linked widgets and then notifies the
listeners with the new value. -/
def update_property (s : ModelState) (ui_property_name : String) (v : Val) :
    ModelState × List Event × Option PyErr :=
  if (dictGet s.properties ui_property_name).isSome then
    let s1 := { s with
      properties := dictModify s.properties ui_property_name
        (fun r => { r with value := v }) }
    let r := update_widget_from_property s1 ui_property_name
    match r.2.2 with
    | some e => (r.1, r.2.1, some e)
    | Option.none =>
      let ls := (dictGet r.1.listeners ui_property_name).getD []
      (r.1, r.2.1 ++ ls.map (fun lid => Event.call lid v), Option.none)
  else (s, [], Option.none)

/-- `Model.listen`: appends the listener to the per-property list. -/
def listen (s : ModelState) (ui_property_name : String) (listener : Nat) :
    ModelState :=
  let ls := ((dictGet s.listeners ui_property_name).getD []) ++ [listener]
  { s with listeners := dictInsert s.listeners ui_property_name ls }

/-- The listeners registered for a property name. -/
def listenersOf (s : ModelState) (name : String) : List Nat :=
  (dictGet s.listeners name).getD []

/-! ### Feedback harness

Writing into a widget fires its save signal, which synchronously invokes
`save_properties` on the same call stack.  `fbAux` replays the update loop of
`update_widgets_from_properties` with that feedback made explicit: after each
successful `update_widget`, `save_properties` runs on the full current state
(block flag set, registry partially updated) and its resulting property
registry is threaded into the remainder of the loop. -/
def fbAux (listeners : List (String × List Nat)) (show_warnings : Bool) :
    List Widget → List (String × UiProperty) → List Widget →
    List Widget × List (String × UiProperty) × List Event × Option PyErr
  | done, props, [] => (done, props, [], Option.none)
  | done, props, w :: rest =>
    let r := update_widget props show_warnings w
    match r.2.2 with
    | some e => (done ++ r.1 :: rest, props, r.2.1, some e)
    | Option.none =>
      let cur : ModelState :=
        ⟨done ++ r.1 :: rest, props, listeners, show_warnings, true⟩
      let sv := save_properties cur
      let rec2 := fbAux listeners show_warnings (done ++ [r.1]) sv.1.properties rest
      (rec2.1, rec2.2.1, r.2.1 ++ sv.2.1 ++ rec2.2.2.1, rec2.2.2.2)

/-- `update_widgets_from_properties` with the setter-triggered saves made
explicit through `fbAux`. -/
def update_widgets_from_properties_fb (s : ModelState) :
    ModelState × List Event × Option PyErr :=
  let r := fbAux s.listeners s.show_warnings [] s.properties s.widgets
  match r.2.2.2 with
  | some e =>
    ({ s with widgets := r.1, properties := r.2.1, block_save := false },
      r.2.2.1, some e)
  | Option.none =>
    let ws2 := r.1.map fun w => { w with signalsBlocked := false }
    ({ s with widgets := ws2, properties := r.2.1, block_save := false },
      r.2.2.1, Option.none)

/-! ### The discovery walk (`Model.iterate_linkable_properties`)

A widget tree: each node carries its `__dict__` attributes that hold widget
values (attribute name and the runtime type of the value) and its list of
child widgets. -/
inductive WTree where
  | node : List (String × WType) → List WTree → WTree

/-- The node's own named attributes. -/
def WTree.attrs : WTree → List (String × WType)
  | .node a _ => a

/-- The node's child widgets. -/
def WTree.children : WTree → List WTree
  | .node _ c => c

/-- An attribute is linkable when its runtime type is a key of the
capability table. -/
def supAttr (a : String × WType) : Bool :=
  (SUPPORT_WIDGET_TYPES a.2).isSome

mutual

/-- `Model.iterate_linkable_properties`: yields the widget's own linkable
attributes, then walks the children. -/
def iterate_linkable_properties : WTree → List (String × WType)
  | .node attrs children => attrs.filter supAttr ++ iterateChildren children

/-- The child loop of `iterate_linkable_properties`: per child, yield the
child's own linkable attributes, then recurse into the child (which yields
the child's own attributes again). -/
def iterateChildren : List WTree → List (String × WType)
  | [] => []
  | c :: rest =>
      c.attrs.filter supAttr ++ iterate_linkable_properties c ++
        iterateChildren rest

end

mutual

/-- Occurrences of `x` among the linkable attributes of the proper
descendants of a node. -/
def descCount (x : String × WType) : WTree → Nat
  | .node _ children => descCountList x children

/-- Occurrences of `x` among the linkable attributes of a forest, each root
of the forest included. -/
def descCountList (x : String × WType) : List WTree → Nat
  | [] => 0
  | c :: rest =>
      (c.attrs.filter supAttr).count x + descCount x c + descCountList x rest

end

/-! ### Spec-side characterizations -/

/-- Modelled from the spec's description of `setup_properties`: the
resulting mapping is keyed by property name, last write wins on duplicate
names, and `default` is populated from `value` at registration time unless
an explicit default was given. -/
def setupSpec (props : List UiProperty) (name : String) : Option UiProperty :=
  ((props.filter (fun p => p.name == name)).getLast?).map fun p =>
    { p with default := if p.default = Val.none then p.value else p.default }

/-- Event classifiers. -/
def isCall : Event → Bool
  | .call _ _ => true
  | .warn _ _ => false

/-- Is this event an invocation of listener `lid`? -/
def isCallTo (lid : Nat) : Event → Bool
  | .call l _ => l == lid
  | .warn _ _ => false

/-- How many times listener `lid` was invoked in an event trace. -/
def countCallsTo (evs : List Event) (lid : Nat) : Nat :=
  (evs.filter (isCallTo lid)).length

/-- The facet dictionary `widget_values` reads from a widget. -/
def valsOf (show_warnings : Bool) (w : Widget) : List (String × Val) :=
  (widget_values show_warnings w).2

/-! ### Dictionary lemmas -/

theorem dictGet_insert_self {α : Type} (m : List (String × α)) (k : String)
    (v : α) : dictGet (dictInsert m k v) k = some v := by
  induction m with
  | nil => simp [dictInsert, dictGet]
  | cons kv rest ih =>
    by_cases h : kv.1 = k
    · simp [dictInsert, h, dictGet]
    · simp [dictInsert, h, dictGet, ih]

theorem dictGet_insert_ne {α : Type} (m : List (String × α)) (k k' : String)
    (v : α) (h : k' ≠ k) : dictGet (dictInsert m k' v) k = dictGet m k := by
  induction m with
  | nil => simp [dictInsert, dictGet, h]
  | cons kv rest ih =>
    by_cases hk : kv.1 = k'
    · simp [dictInsert, hk, dictGet, h]
    · simp only [dictInsert, hk, if_false, dictGet, ih]

theorem dictGet_modify_self {α : Type} (m : List (String × α)) (k : String)
    (f : α → α) : dictGet (dictModify m k f) k = (dictGet m k).map f := by
  induction m with
  | nil => simp [dictModify, dictGet]
  | cons kv rest ih =>
    by_cases h : kv.1 = k
    · simp [dictModify, h, dictGet]
    · simp [dictModify, h, dictGet, ih]

theorem dictGet_modify_ne {α : Type} (m : List (String × α)) (k k' : String)
    (f : α → α) (h : k' ≠ k) : dictGet (dictModify m k' f) k = dictGet m k := by
  induction m with
  | nil => simp [dictModify, dictGet]
  | cons kv rest ih =>
    by_cases hk : kv.1 = k'
    · have hne : kv.1 ≠ k := fun hc => h (hk ▸ hc)
      simp [dictModify, hk, dictGet, hne, h]
    · simp [dictModify, hk, dictGet, ih]

theorem dictGet_some_mem_keys {α : Type} (m : List (String × α)) (k : String)
    (v : α) (h : dictGet m k = some v) : k ∈ m.map Prod.fst := by
  induction m with
  | nil => simp [dictGet] at h
  | cons kv rest ih =>
    by_cases hk : kv.1 = k
    · simp [hk]
    · simp only [dictGet, hk, if_false] at h
      simp [ih h]

theorem mem_keys_dictInsert {α : Type} (m : List (String × α)) (k x : String)
    (v : α) (hx : x ∈ (dictInsert m k v).map Prod.fst) :
    x ∈ m.map Prod.fst ∨ x = k := by
  induction m with
  | nil => simpa [dictInsert] using hx
  | cons kv rest ih =>
    by_cases hk : kv.1 = k
    · simp only [dictInsert, hk, if_true, List.map_cons] at hx
      rw [List.mem_cons] at hx
      rcases hx with hx | hx
      · right; exact hx
      · left; simp [hx]
    · simp only [dictInsert, hk, if_false, List.map_cons] at hx
      rw [List.mem_cons] at hx
      rcases hx with hx | hx
      · left; rw [List.map_cons, List.mem_cons]; left; exact hx
      · rcases ih hx with h3 | h3
        · left; rw [List.map_cons, List.mem_cons]; right; exact h3
        · right; exact h3

theorem keysNodup_dictInsert {α : Type} (m : List (String × α)) (k : String)
    (v : α) (h : keysNodup m) : keysNodup (dictInsert m k v) := by
  induction m with
  | nil => simp [dictInsert, keysNodup]
  | cons kv rest ih =>
    rw [keysNodup, List.map_cons, List.nodup_cons] at h
    by_cases hk : kv.1 = k
    · rw [keysNodup]
      simp only [dictInsert, hk, if_true, List.map_cons]
      rw [List.nodup_cons]
      exact ⟨hk ▸ h.1, h.2⟩
    · have h2 := ih h.2
      rw [keysNodup]
      simp only [dictInsert, hk, if_false, List.map_cons]
      rw [List.nodup_cons]
      refine ⟨fun hmem => ?_, h2⟩
      rcases mem_keys_dictInsert rest k kv.1 v hmem with h3 | h3
      · exact h.1 h3
      · exact hk h3

/-! ### `setup_properties` -/

theorem fixDefault_eq (p : UiProperty) :
    fixDefault p =
      { p with default := if p.default = Val.none then p.value else p.default } := by
  cases p with
  | mk n v d e =>
    by_cases h : d = Val.none
    · simp [fixDefault, h]
    · simp [fixDefault, h]

theorem setup_foldl_get (props : List UiProperty) (name : String) :
    ∀ acc : List (String × UiProperty),
      dictGet (props.foldl (fun acc p => dictInsert acc p.name (fixDefault p)) acc)
          name =
        match (props.filter fun p => p.name == name).getLast? with
        | some q => some (fixDefault q)
        | Option.none => dictGet acc name := by
  induction props with
  | nil => intro acc; rfl
  | cons p rest ih =>
    intro acc
    rw [List.foldl_cons, ih]
    by_cases hp : p.name = name
    · have hf : List.filter (fun q => q.name == name) (p :: rest) =
          p :: List.filter (fun q => q.name == name) rest := by
        simp [List.filter_cons, hp]
      rw [hf]
      cases hrest : (List.filter (fun q => q.name == name) rest).getLast? with
      | none =>
        have hnil : List.filter (fun q => q.name == name) rest = [] :=
          List.getLast?_eq_none_iff.mp hrest
        rw [hnil]
        show dictGet (dictInsert acc p.name (fixDefault p)) name = some (fixDefault p)
        rw [← hp]
        exact dictGet_insert_self acc p.name (fixDefault p)
      | some q =>
        obtain ⟨a, l, hl⟩ :
            ∃ a l, List.filter (fun q => q.name == name) rest = a :: l := by
          cases hc : List.filter (fun q => q.name == name) rest with
          | nil => rw [hc] at hrest; simp at hrest
          | cons a l => exact ⟨a, l, rfl⟩
        rw [hl, List.getLast?_cons_cons, ← hl, hrest]
    · have hf : List.filter (fun q => q.name == name) (p :: rest) =
          List.filter (fun q => q.name == name) rest := by
        simp [List.filter_cons, hp]
      rw [hf]
      cases hrest : (List.filter (fun q => q.name == name) rest).getLast? with
      | none =>
        show dictGet (dictInsert acc p.name (fixDefault p)) name = dictGet acc name
        exact dictGet_insert_ne acc name p.name (fixDefault p) hp
      | some q => rfl

/-- C5: for every property list, `setup_properties` builds a name-keyed
mapping in which last write wins on duplicate names, and each record's
`default` equals its `value` at registration time unless an explicit default
was given. -/
theorem C5_setup_properties (props : List UiProperty) (name : String) :
    dictGet (setup_properties props) name = setupSpec props name := by
  rw [setup_properties, setup_foldl_get props name [], setupSpec]
  cases (props.filter fun p => p.name == name).getLast? with
  | none => rfl
  | some q => simp [fixDefault_eq]

/-! ### C1: the `block_save` guard on the two batch-update operations -/

/-- A supported, linked widget whose setter raises `TypeError`. -/
def wFailC1 : Widget :=
  { id := 1, wtype := WType.QCheckBox, prop := some "a",
    failSet := ["setChecked"], connected := true }

/-- A state in which updating the widget linked to `"a"` raises. -/
def sFailC1 : ModelState :=
  { widgets := [wFailC1],
    properties := [("a", { name := "a", value := Val.int 1 })],
    listeners := [] }

/-- C1 counterexample: when `update_widget` raises inside the loop of
`update_widget_from_property`, the call returns (propagating `TypeError`)
with `block_save` still `true` — there is no `finally` in that method. -/
theorem C1_counterexample :
    ((update_widget_from_property sFailC1 "a").1).block_save = true ∧
    (update_widget_from_property sFailC1 "a").2.2 =
      some (PyErr.typeError (some "a") "setChecked" (Val.int 1)) := by
  decide

/-- C1 (amended): `update_widgets_from_properties` resets `block_save` on
every exit path, exceptions included; `update_widget_from_property` resets
it only when no exception escapes the update loop. -/
theorem C1_block_save_reset (s : ModelState) (name : String)
    (h : (update_widget_from_property s name).2.2 = Option.none) :
    ((update_widgets_from_properties s).1).block_save = false ∧
    ((update_widget_from_property s name).1).block_save = false := by
  constructor
  · cases hres : (updateLoopAcc s.properties s.show_warnings [] s.widgets).2.2 with
    | none => simp only [update_widgets_from_properties, hres]
    | some e => simp only [update_widgets_from_properties, hres]
  · cases hres :
        (updateLinkedAcc s.properties s.show_warnings name [] s.widgets).2.2 with
    | none => simp only [update_widget_from_property, hres]
    | some e =>
      simp only [update_widget_from_property, hres] at h
      exact absurd h (by simp)

/-- A supported, linked widget that updates without error. -/
def wOkC1 : Widget :=
  { id := 3, wtype := WType.QCheckBox, prop := some "a", connected := true }

/-- A state in which the batch updates complete normally. -/
def sOkC1 : ModelState :=
  { widgets := [wOkC1],
    properties := [("a", { name := "a", value := Val.bool true })],
    listeners := [] }

theorem C1_block_save_reset_witness :
    ((update_widgets_from_properties sOkC1).1).block_save = false ∧
    ((update_widget_from_property sOkC1 "a").1).block_save = false :=
  C1_block_save_reset sOkC1 "a" (by decide)

/-! ### C2: linking an unsupported widget -/

/-- A widget whose exact type is not a key of the capability table. -/
def wUnsupC2 : Widget := { id := 7, wtype := WType.unsupported 0 }

/-- A state with warnings disabled. -/
def sNoWarnC2 : ModelState :=
  { widgets := [], properties := [], listeners := [], show_warnings := false }

/-- C2: evaluation of the code at the failing input.  With warnings
disabled, `link_property` on an unsupported widget returns `true`, tags the
widget with the property name and appends it to the registry (the early
`return False` sits under the `self._show_warnings` test), so
`widgets_linked_to_property` then reports the unsupported widget. -/
theorem C2_unsupported_link_bug :
    (link_property sNoWarnC2 wUnsupC2 "p").2.2 = true ∧
    ((widgets_linked_to_property (link_property sNoWarnC2 wUnsupC2 "p").1 "p").map
        Widget.id) = [7] ∧
    (((link_property sNoWarnC2 wUnsupC2 "p").1).widgets.map Widget.prop) =
      [some "p"] := by
  decide

/-! ### C3: tracked widgets whose tag misses the property registry -/

/-- A supported, tracked widget whose `"prop"` tag names no registered
property. -/
def wGhostC3 : Widget :=
  { id := 2, wtype := WType.QCheckBox, prop := some "ghost", connected := true }

/-- A state tracking `wGhostC3` while the registry only knows `"a"`. -/
def sGhostC3 : ModelState :=
  { widgets := [wGhostC3],
    properties := [("a", { name := "a" })],
    listeners := [] }

/-- C3 counterexample: for a supported tracked widget with a stale tag,
both `update_widget` and `save_properties` raise `KeyError` instead of
skipping with a warning. -/
theorem C3_counterexample :
    (update_widget sGhostC3.properties sGhostC3.show_warnings wGhostC3).2.2 =
      some (PyErr.keyError (some "ghost")) ∧
    (save_properties sGhostC3).2.2 = some (PyErr.keyError (some "ghost")) := by
  decide

theorem saveLoop_all_unsupported (L : List (String × List Nat)) (sw : Bool) :
    ∀ (ws : List Widget) (props : List (String × UiProperty)),
      (∀ x ∈ ws, SUPPORT_WIDGET_TYPES x.wtype = Option.none) →
      (saveLoop L sw ws props).1 = props ∧
      (saveLoop L sw ws props).2.2 = Option.none ∧
      ((saveLoop L sw ws props).2.1).filter isCall = [] := by
  intro ws
  induction ws with
  | nil => intro props h; exact ⟨rfl, rfl, rfl⟩
  | cons w rest ih =>
    intro props h
    have hw : SUPPORT_WIDGET_TYPES w.wtype = Option.none := h w (by simp)
    have hrest := ih props (fun x hx => h x (by simp [hx]))
    have hwv : widget_values sw w =
        ((if sw then [Event.warn w.id w.prop] else []), []) := by
      rw [widget_values, hw]
    simp only [saveLoop, hwv, applySetattrs, listenersAt]
    refine ⟨hrest.1, hrest.2.1, ?_⟩
    rw [List.filter_append, List.filter_append, hrest.2.2]
    cases hsw : sw <;> simp [isCall, List.flatMap]

/-- C3 (amended): a tracked widget of *unsupported* type is skipped by
`update_widget` with at most a warning and no exception, and
`save_properties` over a registry of unsupported widgets leaves the state
unchanged, raises nothing and invokes no listener; but (per the
counterexample) a *supported* tracked widget whose tag is not a registry
key makes both operations raise `KeyError`. -/
theorem C3_mismatch_handling (s : ModelState) (w : Widget)
    (hw : SUPPORT_WIDGET_TYPES w.wtype = Option.none)
    (hall : ∀ x ∈ s.widgets, SUPPORT_WIDGET_TYPES x.wtype = Option.none)
    (hb : s.block_save = false) :
    ((update_widget s.properties s.show_warnings w).1 = w ∧
      (update_widget s.properties s.show_warnings w).2.2 = Option.none) ∧
    ((save_properties s).1 = s ∧ (save_properties s).2.2 = Option.none ∧
      ((save_properties s).2.1).filter isCall = []) := by
  constructor
  · constructor
    · rw [update_widget, hw]
      cases hsw : s.show_warnings <;> simp
    · rw [update_widget, hw]
      cases hsw : s.show_warnings <;> simp
  · have hloop := saveLoop_all_unsupported s.listeners s.show_warnings
      s.widgets s.properties hall
    rw [save_properties, if_neg (by rw [hb]; exact Bool.false_ne_true)]
    refine ⟨?_, hloop.2.1, hloop.2.2⟩
    show ModelState.mk s.widgets
        (saveLoop s.listeners s.show_warnings s.widgets s.properties).1
        s.listeners s.show_warnings s.block_save = s
    rw [hloop.1]

/-- An unsupported tracked widget with an unregistered tag. -/
def wUnsupC3 : Widget :=
  { id := 9, wtype := WType.unsupported 1, prop := some "zz" }

/-- A state tracking only `wUnsupC3`, with an empty property registry. -/
def sUnsupC3 : ModelState :=
  { widgets := [wUnsupC3], properties := [], listeners := [] }

/-! ### C4: feedback-loop suppression -/

theorem save_properties_blocked (s : ModelState) (h : s.block_save = true) :
    save_properties s = (s, [], Option.none) := by
  rw [save_properties, if_pos h]

theorem fbAux_eq (L : List (String × List Nat)) (sw : Bool) :
    ∀ (todo done : List Widget) (props : List (String × UiProperty)),
      fbAux L sw done props todo =
        ((updateLoopAcc props sw done todo).1, props,
          (updateLoopAcc props sw done todo).2.1,
          (updateLoopAcc props sw done todo).2.2) := by
  intro todo
  induction todo with
  | nil => intro done props; rfl
  | cons w rest ih =>
    intro done props
    simp only [fbAux, updateLoopAcc]
    cases hres : (update_widget props sw w).2.2 with
    | some e => simp [hres]
    | none =>
      have hsv : save_properties
          ⟨done ++ (update_widget props sw w).1 :: rest, props, L, sw, true⟩ =
          (⟨done ++ (update_widget props sw w).1 :: rest, props, L, sw, true⟩,
            [], Option.none) :=
        save_properties_blocked _ rfl
      simp [hres, hsv, ih]

/-- C4: `save_properties` is a no-op whenever `block_save` is set — it
returns the state unchanged, emits no events and raises nothing — and
therefore running `update_widgets_from_properties` with the setter-triggered
synchronous saves made explicit (`update_widgets_from_properties_fb`)
produces exactly the same state, events and outcome as the plain batch
update: the mid-batch saves change no property record and invoke no
listener. -/
theorem C4_feedback_suppression (s t : ModelState) (h : t.block_save = true) :
    save_properties t = (t, [], Option.none) ∧
    update_widgets_from_properties_fb s = update_widgets_from_properties s := by
  refine ⟨save_properties_blocked t h, ?_⟩
  simp only [update_widgets_from_properties_fb, update_widgets_from_properties,
    fbAux_eq s.listeners s.show_warnings s.widgets [] s.properties]

/-- A supported widget linked to `"a"`, used for the C4 witness batch. -/
def wOkC4 : Widget :=
  { id := 4, wtype := WType.QLineEdit, prop := some "a", connected := true }

/-- A nontrivial state for the C4 witness batch update. -/
def sBatchC4 : ModelState :=
  { widgets := [wOkC4],
    properties := [("a", { name := "a", value := Val.str "x" })],
    listeners := [("a", [11])] }

/-- A blocked state for the C4 witness. -/
def sBlockedC4 : ModelState :=
  { widgets := [], properties := [], listeners := [], block_save := true }

theorem C4_feedback_suppression_witness :
    save_properties sBlockedC4 = (sBlockedC4, [], Option.none) ∧
    update_widgets_from_properties_fb sBatchC4 =
      update_widgets_from_properties sBatchC4 :=
  C4_feedback_suppression sBatchC4 sBlockedC4 (by decide)

theorem C3_mismatch_handling_witness :
    ((update_widget sUnsupC3.properties sUnsupC3.show_warnings wUnsupC3).1 =
        wUnsupC3 ∧
      (update_widget sUnsupC3.properties sUnsupC3.show_warnings wUnsupC3).2.2 =
        Option.none) ∧
    ((save_properties sUnsupC3).1 = sUnsupC3 ∧
      (save_properties sUnsupC3).2.2 = Option.none ∧
      ((save_properties sUnsupC3).2.1).filter isCall = []) :=
  C3_mismatch_handling sUnsupC3 wUnsupC3 (by decide) (by decide) (by decide)

/-! ### Lemmas about the widget-update path -/

/-- `update_widget` never invokes a listener: its only events are
warnings. -/
theorem update_widget_no_calls (props : List (String × UiProperty)) (sw : Bool)
    (w : Widget) : ((update_widget props sw w).2.1).filter isCall = [] := by
  cases hty : SUPPORT_WIDGET_TYPES w.wtype with
  | none => cases hsw : sw <;> simp [update_widget, hty, hsw, isCall]
  | some info =>
    cases herr : (updateLoop props (widget_property_name w) w info.getsets 0).2 with
    | some e => simp [update_widget, hty, herr]
    | none =>
      by_cases hc : (info.getsets.isEmpty && sw) = true
      · simp [update_widget, hty, herr, hc, isCall]
      · simp [update_widget, hty, herr, hc]

theorem updateLinkedAcc_no_calls (props : List (String × UiProperty)) (sw : Bool)
    (name : String) :
    ∀ (todo done : List Widget),
      ((updateLinkedAcc props sw name done todo).2.1).filter isCall = [] := by
  intro todo
  induction todo with
  | nil => intro done; rfl
  | cons w rest ih =>
    intro done
    by_cases hp : (w.prop == some name) = true
    · cases herr : (update_widget props sw w).2.2 with
      | some e =>
        simp [updateLinkedAcc, hp, herr, update_widget_no_calls props sw w]
      | none =>
        simp [updateLinkedAcc, hp, herr, List.filter_append,
          update_widget_no_calls props sw w, ih]
    · simp [updateLinkedAcc, hp, ih]

/-- `update_widget_from_property` never invokes a listener. -/
theorem update_widget_from_property_no_calls (s : ModelState) (name : String) :
    ((update_widget_from_property s name).2.1).filter isCall = [] := by
  cases hres :
      (updateLinkedAcc s.properties s.show_warnings name [] s.widgets).2.2 with
  | some e =>
    simp only [update_widget_from_property, hres]
    exact updateLinkedAcc_no_calls s.properties s.show_warnings name s.widgets []
  | none =>
    simp only [update_widget_from_property, hres]
    exact updateLinkedAcc_no_calls s.properties s.show_warnings name s.widgets []

/-- `update_widget_from_property` touches only the widgets and the
`block_save` flag: the property registry and the listener table are
preserved. -/
theorem update_widget_from_property_state (s : ModelState) (name : String) :
    ((update_widget_from_property s name).1).properties = s.properties ∧
    ((update_widget_from_property s name).1).listeners = s.listeners := by
  cases hres :
      (updateLinkedAcc s.properties s.show_warnings name [] s.widgets).2.2 with
  | some e => constructor <;> simp only [update_widget_from_property, hres]
  | none => constructor <;> simp only [update_widget_from_property, hres]

theorem dictModify_self_id {α : Type} (m : List (String × α)) (k : String)
    (f : α → α) (r : α) (h : dictGet m k = some r) (hf : f r = r) :
    dictModify m k f = m := by
  induction m with
  | nil => rfl
  | cons kv rest ih =>
    by_cases hk : kv.1 = k
    · rw [dictGet, if_pos hk] at h
      injection h with h2
      rw [dictModify, if_pos hk, h2, hf, ← h2]
    · rw [dictGet, if_neg hk] at h
      rw [dictModify, if_neg hk, ih h]

theorem filter_isCall_map_call (ls : List Nat) (v : Val) :
    ((ls.map fun lid => Event.call lid v).filter isCall) =
      ls.map fun lid => Event.call lid v := by
  induction ls with
  | nil => rfl
  | cons l rest ih => simp [isCall, ih]

/-! ### C6: `update_property` round trip and unregistered no-op -/

/-- C6: writing a registered property and reading it back yields the
written value (the widget refresh in between never touches the registry),
and `update_property` on an unregistered name returns the state unchanged,
emits no event and raises nothing. -/
theorem C6_update_property (s : ModelState) (p : String) (v : Val) :
    ((dictGet s.properties p).isSome = true →
      (dictGet ((update_property s p v).1).properties p).map UiProperty.value =
        some v) ∧
    (dictGet s.properties p = Option.none →
      update_property s p v = (s, [], Option.none)) := by
  constructor
  · intro hreg
    have hstate := update_widget_from_property_state
      { s with properties := dictModify s.properties p fun r => { r with value := v } } p
    cases hres : (update_widget_from_property
        { s with properties := dictModify s.properties p fun r => { r with value := v } }
        p).2.2 with
    | some e =>
      simp only [update_property, hreg, if_true, hres]
      rw [hstate.1]
      show (dictGet (dictModify s.properties p fun r => { r with value := v }) p).map
        UiProperty.value = some v
      rw [dictGet_modify_self]
      obtain ⟨r0, hr0⟩ := Option.isSome_iff_exists.mp hreg
      rw [hr0]
      rfl
    | none =>
      simp only [update_property, hreg, if_true, hres]
      rw [hstate.1]
      show (dictGet (dictModify s.properties p fun r => { r with value := v }) p).map
        UiProperty.value = some v
      rw [dictGet_modify_self]
      obtain ⟨r0, hr0⟩ := Option.isSome_iff_exists.mp hreg
      rw [hr0]
      rfl
  · intro hnone
    rw [update_property, if_neg (by rw [hnone]; simp)]

/-- A state with one registered property `"a"` and none named `"b"`. -/
def sRegC6 : ModelState :=
  { widgets := [], properties := [("a", { name := "a", value := Val.int 0 })],
    listeners := [] }

theorem C6_update_property_witness :
    ((dictGet ((update_property sRegC6 "a" (Val.int 9)).1).properties "a").map
        UiProperty.value = some (Val.int 9)) ∧
    (update_property sRegC6 "b" (Val.int 9) = (sRegC6, [], Option.none)) :=
  ⟨(C6_update_property sRegC6 "a" (Val.int 9)).1 (by decide),
    (C6_update_property sRegC6 "b" (Val.int 9)).2 (by decide)⟩

/-! ### C7: listener registration and dispatch order -/

/-- C7: `listen` appends the callback to the per-property list (no
replacement, no dedup), and a completed `update_property` on a registered
property invokes exactly the listeners registered for it, in registration
order, each exactly once, each with the new value — the widget-refresh phase
emits no listener calls, so the call events of the trace are precisely the
per-listener invocations in list order. -/
theorem C7_listener_dispatch (s : ModelState) (p q : String) (v : Val)
    (lid : Nat) (hreg : (dictGet s.properties p).isSome = true)
    (hok : (update_property s p v).2.2 = Option.none) :
    listenersOf (listen s q lid) q = listenersOf s q ++ [lid] ∧
    ((update_property s p v).2.1).filter isCall =
      (listenersOf s p).map fun i => Event.call i v := by
  have hok2 : (update_widget_from_property
      { s with properties := dictModify s.properties p fun r => { r with value := v } }
      p).2.2 = Option.none := by
    cases hres : (update_widget_from_property
        { s with properties := dictModify s.properties p fun r => { r with value := v } }
        p).2.2 with
    | some e =>
      simp only [update_property, hreg, if_true, hres] at hok
      exact absurd hok (by simp)
    | none => rfl
  constructor
  · simp [listenersOf, listen, dictGet_insert_self]
  · simp only [update_property, hreg, if_true, hok2]
    rw [List.filter_append, update_widget_from_property_no_calls,
      (update_widget_from_property_state _ p).2, filter_isCall_map_call]
    simp [listenersOf]

/-- A state with two listeners on `"p"`, in registration order. -/
def sLisC7 : ModelState :=
  { widgets := [], properties := [("p", { name := "p" })],
    listeners := [("p", [1, 2])] }

theorem C7_listener_dispatch_witness :
    listenersOf (listen sLisC7 "q" 3) "q" = listenersOf sLisC7 "q" ++ [3] ∧
    ((update_property sLisC7 "p" (Val.int 5)).2.1).filter isCall =
      (listenersOf sLisC7 "p").map fun i => Event.call i (Val.int 5) :=
  C7_listener_dispatch sLisC7 "p" "q" (Val.int 5) 3 (by decide) (by decide)

/-! ### C9: no change detection in `update_property` -/

/-- C9: `update_property` performs no change detection — when the stored
value already equals the new value, the call still runs the full widget
refresh (its state and events coincide with those of
`update_widget_from_property`) and still notifies every registered listener
with the value. -/
theorem C9_no_change_detection (s : ModelState) (p : String) (v : Val)
    (r0 : UiProperty) (hreg : dictGet s.properties p = some r0)
    (hv : r0.value = v)
    (hok : (update_widget_from_property s p).2.2 = Option.none) :
    (update_property s p v).1 = (update_widget_from_property s p).1 ∧
    (update_property s p v).2.1 =
      (update_widget_from_property s p).2.1 ++
        (listenersOf s p).map fun lid => Event.call lid v := by
  have hisSome : (dictGet s.properties p).isSome = true := by rw [hreg]; rfl
  have hmod : dictModify s.properties p (fun r => { r with value := v }) =
      s.properties := by
    refine dictModify_self_id s.properties p _ r0 hreg ?_
    cases r0 with
    | mk n val d e =>
      cases hv
      rfl
  have hs1 : ({ s with
      properties := dictModify s.properties p fun r => { r with value := v } } :
        ModelState) = s := by
    rw [hmod]
  constructor
  · simp only [update_property, hisSome, if_true, hs1, hok]
  · simp only [update_property, hisSome, if_true, hs1, hok]
    rw [(update_widget_from_property_state s p).2]
    rfl

/-- A supported widget for the C9 witness. -/
def wC9 : Widget :=
  { id := 5, wtype := WType.QProgressBar, prop := some "a", connected := true }

/-- A state whose property `"a"` already holds the value being written. -/
def sC9 : ModelState :=
  { widgets := [wC9],
    properties := [("a", { name := "a", value := Val.int 0 })],
    listeners := [("a", [4])] }

theorem C9_no_change_detection_witness :
    (update_property sC9 "a" (Val.int 0)).1 =
      (update_widget_from_property sC9 "a").1 ∧
    (update_property sC9 "a" (Val.int 0)).2.1 =
      (update_widget_from_property sC9 "a").2.1 ++
        (listenersOf sC9 "a").map fun lid => Event.call lid (Val.int 0) :=
  C9_no_change_detection sC9 "a" (Val.int 0)
    { name := "a", value := Val.int 0 } (by decide) (by decide) (by decide)

/-! ### C8: the discovery walk -/

/-- A root with a single child owning one supported attribute. -/
def tC8 : WTree := .node [] [.node [("a", WType.QCheckBox)] []]

/-- C8 counterexample: the child's attribute is yielded twice — once by the
explicit child loop and once by the recursive call, which re-yields the
child's own attributes — so the walk does not yield every supported
attribute exactly once. -/
theorem C8_counterexample :
    iterate_linkable_properties tC8 =
      [("a", WType.QCheckBox), ("a", WType.QCheckBox)] := by
  rfl

mutual

theorem iterate_count (x : String × WType) :
    ∀ t : WTree,
      (iterate_linkable_properties t).count x =
        (t.attrs.filter supAttr).count x + 2 * descCount x t
  | .node attrs children => by
    rw [iterate_linkable_properties, descCount, List.count_append,
      iterateChildren_count x children]
    rfl

theorem iterateChildren_count (x : String × WType) :
    ∀ cs : List WTree, (iterateChildren cs).count x = 2 * descCountList x cs
  | [] => by rfl
  | c :: rest => by
    rw [iterateChildren, descCountList, List.count_append, List.count_append,
      iterate_count x c, iterateChildren_count x rest]
    ring

end

/-- C8 (amended): the walk yields the root's own supported attributes
exactly once, but every supported attribute of a proper descendant exactly
twice (the parent's child loop and the recursive call each yield it, in
immediate succession): for every tree and attribute entry, its multiplicity
in the walk is its multiplicity among the root's supported attributes plus
twice its multiplicity among all proper descendants. -/
theorem C8_duplicated_walk (t : WTree) (x : String × WType) :
    (iterate_linkable_properties t).count x =
      (t.attrs.filter supAttr).count x + 2 * descCount x t :=
  iterate_count x t

/-! ### C10: `save_properties` over several widgets of one property -/

/-- The `"value"` facet entries of a facet dictionary. -/
def valueEntries (vals : List (String × Val)) : List (String × Val) :=
  vals.filter fun kv => kv.1 == "value"

theorem getattr_setattr_self (r : UiProperty) (k : String) (v : Val) :
    (r.setattr_field k v).getattr_field k = .ok v := by
  by_cases h1 : k = "value"
  · simp [UiProperty.setattr_field, UiProperty.getattr_field, h1]
  · by_cases h2 : k = "default"
    · simp [UiProperty.setattr_field, UiProperty.getattr_field, h1, h2]
    · simp [UiProperty.setattr_field, UiProperty.getattr_field, h1, h2,
        dictGet_insert_self]

theorem getattr_setattr_ne (r : UiProperty) (k k' : String) (v : Val)
    (h : k' ≠ k) :
    (r.setattr_field k' v).getattr_field k = r.getattr_field k := by
  by_cases h1 : k' = "value" <;> by_cases h3 : k = "value" <;>
    by_cases h2 : k' = "default" <;> by_cases h4 : k = "default" <;>
    simp_all [UiProperty.setattr_field, UiProperty.getattr_field,
      dictGet_insert_ne]

theorem applyVals_getattr_notmem :
    ∀ (vals : List (String × Val)) (r : UiProperty) (k : String),
      k ∉ vals.map Prod.fst →
      (applyVals r vals).getattr_field k = r.getattr_field k := by
  intro vals
  induction vals with
  | nil => intro r k h; rfl
  | cons kv tail ih =>
    intro r k h
    rw [List.map_cons, List.mem_cons] at h
    push_neg at h
    show (applyVals (r.setattr_field kv.1 kv.2) tail).getattr_field k =
      r.getattr_field k
    rw [ih _ k h.2, getattr_setattr_ne r k kv.1 kv.2 (fun hc => h.1 (hc ▸ rfl))]

theorem applyVals_getattr :
    ∀ (vals : List (String × Val)) (r : UiProperty) (k : String) (v : Val),
      keysNodup vals → dictGet vals k = some v →
      (applyVals r vals).getattr_field k = .ok v := by
  intro vals
  induction vals with
  | nil => intro r k v _ hkv; simp [dictGet] at hkv
  | cons kv tail ih =>
    intro r k v hnd hkv
    rw [keysNodup, List.map_cons, List.nodup_cons] at hnd
    by_cases hk : kv.1 = k
    · rw [dictGet, if_pos hk] at hkv
      injection hkv with h2
      have hnotmem : k ∉ tail.map Prod.fst := hk ▸ hnd.1
      show (applyVals (r.setattr_field kv.1 kv.2) tail).getattr_field k = .ok v
      rw [applyVals_getattr_notmem tail _ k hnotmem, hk, getattr_setattr_self,
        h2]
    · rw [dictGet, if_neg hk] at hkv
      show (applyVals (r.setattr_field kv.1 kv.2) tail).getattr_field k = .ok v
      exact ih _ k v hnd.2 hkv

theorem keysNodup_buildVals (w : Widget) :
    ∀ (gs : List UiPropertyGetSet) (i : Nat) (acc : List (String × Val)),
      keysNodup acc → keysNodup (buildVals w gs i acc) := by
  intro gs
  induction gs with
  | nil => intro i acc h; exact h
  | cons g tail ih =>
    intro i acc h
    exact ih (i + 1) _ (keysNodup_dictInsert acc _ _ h)

theorem keysNodup_foldl_insert (w : Widget) :
    ∀ (l : List (String × String)) (acc : List (String × Val)),
      keysNodup acc →
      keysNodup (l.foldl (fun acc kv => dictInsert acc kv.1 (getterCall w kv.2))
        acc) := by
  intro l
  induction l with
  | nil => intro acc h; exact h
  | cons kv tail ih =>
    intro acc h
    exact ih _ (keysNodup_dictInsert acc _ _ h)

/-- The facet dictionary built by `widget_values` has pairwise-distinct
keys. -/
theorem keysNodup_valsOf (sw : Bool) (w : Widget) : keysNodup (valsOf sw w) := by
  rw [valsOf, widget_values]
  cases hty : SUPPORT_WIDGET_TYPES w.wtype with
  | none => simp [keysNodup]
  | some info =>
    exact keysNodup_foldl_insert w w.extraProps _
      (keysNodup_buildVals w info.getsets 0 [] (by simp [keysNodup]))

theorem valueEntries_nil_of_notmem (vals : List (String × Val))
    (h : "value" ∉ vals.map Prod.fst) : valueEntries vals = [] := by
  induction vals with
  | nil => rfl
  | cons kv tail ih =>
    rw [List.map_cons, List.mem_cons] at h
    push_neg at h
    have hk : (kv.1 == "value") = false := by
      simp only [beq_eq_false_iff_ne, ne_eq]
      exact fun hc => h.1 (hc ▸ rfl)
    rw [valueEntries, List.filter_cons, hk]
    exact ih h.2

theorem length_valueEntries_of_nodup :
    ∀ vals : List (String × Val), keysNodup vals →
      (valueEntries vals).length =
        if (dictGet vals "value").isSome then 1 else 0 := by
  intro vals
  induction vals with
  | nil => intro h; rfl
  | cons kv tail ih =>
    intro hnd
    rw [keysNodup, List.map_cons, List.nodup_cons] at hnd
    by_cases hk : kv.1 = "value"
    · have hemp : valueEntries tail = [] :=
        valueEntries_nil_of_notmem tail (hk ▸ hnd.1)
      have hkb : (kv.1 == "value") = true := by simp [hk]
      rw [valueEntries, List.filter_cons, hkb]
      rw [show List.filter (fun kv => kv.1 == "value") tail = [] from hemp]
      simp [dictGet, hk]
    · rw [valueEntries, List.filter_cons]
      have hkb : (kv.1 == "value") = false := by
        simp only [beq_eq_false_iff_ne, ne_eq]; exact hk
      rw [hkb]
      simp only [dictGet, hk, if_false]
      exact ih hnd.2

theorem applySetattrs_get (props : List (String × UiProperty))
    (pname : Option String) (vals : List (String × Val))
    (props' : List (String × UiProperty)) (p : String)
    (h : applySetattrs props pname vals = .ok props') :
    dictGet props' p =
      if pname == some p && !vals.isEmpty then
        (dictGet props p).map fun r => applyVals r vals
      else dictGet props p := by
  cases vals with
  | nil =>
    simp only [applySetattrs] at h
    injection h with h2
    subst h2
    simp
  | cons kv tail =>
    cases pname with
    | none => simp [applySetattrs] at h
    | some nm =>
      cases hg : dictGet props nm with
      | none => simp [applySetattrs, hg] at h
      | some r0 =>
        simp only [applySetattrs, hg] at h
        injection h with h2
        subst h2
        by_cases hnp : nm = p
        · subst hnp
          simp [dictGet_modify_self]
        · have hb : (some nm == some p) = false := by simp [hnp]
          rw [hb]
          simp only [Bool.false_and, if_false]
          exact dictGet_modify_ne props p nm _ hnp

theorem saveLoop_get (L : List (String × List Nat)) (sw : Bool) (p : String) :
    ∀ (ws : List Widget) (props : List (String × UiProperty)),
      (saveLoop L sw ws props).2.2 = Option.none →
      dictGet (saveLoop L sw ws props).1 p =
        ws.foldl (fun acc w =>
          if w.prop == some p && !((widget_values sw w).2).isEmpty then
            acc.map fun r => applyVals r (widget_values sw w).2
          else acc) (dictGet props p) := by
  intro ws
  induction ws with
  | nil => intro props _; rfl
  | cons w rest ih =>
    intro props hok
    cases happ : applySetattrs props w.prop (widget_values sw w).2 with
    | error e =>
      simp only [saveLoop, happ] at hok
      exact absurd hok (by simp)
    | ok props' =>
      have hok2 : (saveLoop L sw rest props').2.2 = Option.none := by
        simp only [saveLoop, happ] at hok
        exact hok
      simp only [saveLoop, happ]
      rw [ih props' hok2, List.foldl_cons,
        applySetattrs_get props w.prop (widget_values sw w).2 props' p happ]

theorem foldl_step_isSome (sw : Bool) (p : String) :
    ∀ (ws : List Widget) (acc : Option UiProperty), acc.isSome = true →
      (ws.foldl (fun acc w =>
        if w.prop == some p && !((widget_values sw w).2).isEmpty then
          acc.map fun r => applyVals r (widget_values sw w).2
        else acc) acc).isSome = true := by
  intro ws
  induction ws with
  | nil => intro acc h; exact h
  | cons w rest ih =>
    intro acc h
    rw [List.foldl_cons]
    apply ih
    by_cases hc : (w.prop == some p && !((widget_values sw w).2).isEmpty) = true
    · rw [if_pos hc]
      cases hacc : acc with
      | none => rw [hacc] at h; exact absurd h (by simp)
      | some r => simp
    · rw [if_neg hc]
      exact h

theorem foldl_apply_last (sw : Bool) (p k : String) (v : Val) :
    ∀ (ws : List Widget) (acc : Option UiProperty) (wl : Widget),
      (ws.filter fun w => w.prop == some p).getLast? = some wl →
      dictGet ((widget_values sw wl).2) k = some v →
      acc.isSome = true →
      ∃ r2, ws.foldl (fun acc w =>
          if w.prop == some p && !((widget_values sw w).2).isEmpty then
            acc.map fun r => applyVals r (widget_values sw w).2
          else acc) acc = some r2 ∧ r2.getattr_field k = .ok v := by
  intro ws
  induction ws using List.reverseRecOn with
  | nil => intro acc wl hlast _ _; simp at hlast
  | append_singleton ws2 w ih =>
    intro acc wl hlast hkv hacc
    rw [List.foldl_append, List.foldl_cons, List.foldl_nil]
    by_cases hw : (w.prop == some p) = true
    · have hfl : List.filter (fun w => w.prop == some p) (ws2 ++ [w]) =
          List.filter (fun w => w.prop == some p) ws2 ++ [w] := by
        rw [List.filter_append]
        simp [List.filter_cons, hw]
      rw [hfl, List.getLast?_concat] at hlast
      injection hlast with hwl
      subst hwl
      have hne : ((widget_values sw w).2).isEmpty = false := by
        cases hv2 : (widget_values sw w).2 with
        | nil => rw [hv2] at hkv; simp [dictGet] at hkv
        | cons a l => simp
      have hcond : (w.prop == some p && !((widget_values sw w).2).isEmpty) =
          true := by rw [hw, hne]; rfl
      rw [if_pos hcond]
      obtain ⟨r1, hr1⟩ :=
        Option.isSome_iff_exists.mp (foldl_step_isSome sw p ws2 acc hacc)
      rw [hr1]
      exact ⟨applyVals r1 (widget_values sw w).2, rfl,
        applyVals_getattr _ r1 k v (keysNodup_valsOf sw w) hkv⟩
    · have hwf : (w.prop == some p) = false := by
        cases h2 : (w.prop == some p) with
        | true => exact absurd h2 hw
        | false => rfl
      have hfl : List.filter (fun w => w.prop == some p) (ws2 ++ [w]) =
          List.filter (fun w => w.prop == some p) ws2 := by
        rw [List.filter_append]
        simp [List.filter_cons, hwf]
      rw [hfl] at hlast
      have hcond : (w.prop == some p && !((widget_values sw w).2).isEmpty) =
          false := by rw [hwf]; rfl
      rw [if_neg (by rw [hcond]; exact Bool.false_ne_true)]
      exact ih acc wl hlast hkv hacc

theorem countCallsTo_append (a b : List Event) (lid : Nat) :
    countCallsTo (a ++ b) lid = countCallsTo a lid + countCallsTo b lid := by
  simp [countCallsTo, List.filter_append]

theorem countCallsTo_warns (sw : Bool) (w : Widget) (lid : Nat) :
    countCallsTo ((widget_values sw w).1) lid = 0 := by
  rw [widget_values]
  cases hty : SUPPORT_WIDGET_TYPES w.wtype with
  | some info => simp [countCallsTo]
  | none => cases hsw : sw <;> simp [countCallsTo, isCallTo]

theorem countCallsTo_cons (e : Event) (evs : List Event) (lid : Nat) :
    countCallsTo (e :: evs) lid =
      (if isCallTo lid e then 1 else 0) + countCallsTo evs lid := by
  rw [countCallsTo, List.filter_cons]
  by_cases h : isCallTo lid e = true
  · simp [h, countCallsTo, Nat.add_comm]
  · simp [h, countCallsTo]

theorem countCallsTo_filterMap_call :
    ∀ (vals : List (String × Val)) (l lid : Nat),
      countCallsTo (vals.filterMap fun kv =>
        if kv.1 = "value" then some (Event.call l kv.2) else Option.none) lid =
      if l = lid then (valueEntries vals).length else 0 := by
  intro vals
  induction vals with
  | nil => intro l lid; simp [countCallsTo, valueEntries]
  | cons kv tail ih =>
    intro l lid
    by_cases hk : kv.1 = "value" <;> by_cases hl : l = lid <;>
      simp [List.filterMap_cons, hk, hl, countCallsTo_cons, isCallTo, ih,
        valueEntries, List.filter_cons] <;> omega

theorem countCallsTo_flatMap (vals : List (String × Val)) :
    ∀ (ls : List Nat) (lid : Nat),
      countCallsTo (ls.flatMap fun l => vals.filterMap fun kv =>
        if kv.1 = "value" then some (Event.call l kv.2) else Option.none) lid =
      ls.count lid * (valueEntries vals).length := by
  intro ls
  induction ls with
  | nil => intro lid; simp [countCallsTo]
  | cons l tail ih =>
    intro lid
    rw [List.flatMap_cons, countCallsTo_append, countCallsTo_filterMap_call,
      ih, List.count_cons]
    by_cases hl : l = lid
    · simp [hl]
      ring
    · simp [hl]

theorem saveLoop_calls (L : List (String × List Nat)) (sw : Bool) (lid : Nat) :
    ∀ (ws : List Widget) (props : List (String × UiProperty)),
      (saveLoop L sw ws props).2.2 = Option.none →
      countCallsTo (saveLoop L sw ws props).2.1 lid =
        (ws.map fun w =>
          (listenersAt L w.prop).count lid *
            (valueEntries (widget_values sw w).2).length).sum := by
  intro ws
  induction ws with
  | nil => intro props _; rfl
  | cons w rest ih =>
    intro props hok
    cases happ : applySetattrs props w.prop (widget_values sw w).2 with
    | error e =>
      simp only [saveLoop, happ] at hok
      exact absurd hok (by simp)
    | ok props' =>
      have hok2 : (saveLoop L sw rest props').2.2 = Option.none := by
        simp only [saveLoop, happ] at hok
        exact hok
      simp only [saveLoop, happ]
      rw [countCallsTo_append, countCallsTo_append, countCallsTo_warns,
        countCallsTo_flatMap, ih props' hok2, List.map_cons, List.sum_cons]
      omega

theorem listenersAt_none (L : List (String × List Nat)) :
    listenersAt L Option.none = [] := rfl

theorem listenersAt_some (L : List (String × List Nat)) (nm : String) :
    listenersAt L (some nm) = (dictGet L nm).getD [] := rfl

theorem sum_calls_eq_length (L : List (String × List Nat)) (sw : Bool)
    (p : String) (lid : Nat)
    (hcount : ((dictGet L p).getD []).count lid = 1)
    (hother : ∀ q ∈ L.map Prod.fst, q ≠ p →
      ((dictGet L q).getD []).count lid = 0) :
    ∀ ws : List Widget,
      (ws.map fun w => (listenersAt L w.prop).count lid *
        (valueEntries (widget_values sw w).2).length).sum =
      (ws.filter fun w =>
        w.prop == some p &&
          (dictGet (widget_values sw w).2 "value").isSome).length := by
  intro ws
  induction ws with
  | nil => rfl
  | cons w rest ih =>
    rw [List.map_cons, List.sum_cons, List.filter_cons]
    cases hq : w.prop with
    | none =>
      rw [listenersAt_none]
      simp [ih]
    | some q =>
      by_cases hqp : q = p
      · subst hqp
        have hlen := length_valueEntries_of_nodup (widget_values sw w).2
          (keysNodup_valsOf sw w)
        rw [listenersAt_some, hcount, hlen, Nat.one_mul]
        by_cases hs : (dictGet (widget_values sw w).2 "value").isSome = true
        · simp [hs, ih]
          omega
        · simp [hs, ih]
      · have hto : ((dictGet L q).getD []).count lid = 0 := by
          cases hg : dictGet L q with
          | none => simp
          | some ls2 =>
            have h5 := hother q (dictGet_some_mem_keys L q ls2 hg) hqp
            rw [hg] at h5
            exact h5
        rw [listenersAt_some, hto, Nat.zero_mul]
        have hb : (some q == some p) = false := by simp [hqp]
        simp [hb, ih]

/-- C10: with `block_save` clear and a completed save, `save_properties`
processes the registry in insertion order, so the record of property `p`
ends holding the facet values read from the last widget linked to `p`
(last write wins), and a listener registered once for `p` (and for no other
property) is invoked once per linked widget whose facet dictionary contains
the `"value"` key — not once per `save_properties` call. -/
theorem C10_save_registry_order (s : ModelState) (p : String) (lid : Nat)
    (wl : Widget) (k : String) (v : Val)
    (hb : s.block_save = false)
    (hok : (save_properties s).2.2 = Option.none)
    (hp : (dictGet s.properties p).isSome = true)
    (hcount : (listenersOf s p).count lid = 1)
    (hother : ∀ q ∈ s.listeners.map Prod.fst, q ≠ p →
      ((dictGet s.listeners q).getD []).count lid = 0)
    (hlast : (s.widgets.filter fun w => w.prop == some p).getLast? = some wl)
    (hkv : dictGet ((widget_values s.show_warnings wl).2) k = some v) :
    (∃ r2, dictGet ((save_properties s).1).properties p = some r2 ∧
        r2.getattr_field k = Except.ok v) ∧
    countCallsTo ((save_properties s).2.1) lid =
      (s.widgets.filter fun w =>
        w.prop == some p &&
          (dictGet ((widget_values s.show_warnings w).2) "value").isSome).length := by
  have hnb : ¬ s.block_save = true := by rw [hb]; exact Bool.false_ne_true
  have hok2 :
      (saveLoop s.listeners s.show_warnings s.widgets s.properties).2.2 =
        Option.none := by
    rw [save_properties, if_neg hnb] at hok
    exact hok
  constructor
  · have hg := saveLoop_get s.listeners s.show_warnings p s.widgets
      s.properties hok2
    obtain ⟨r2, hr2, hget⟩ := foldl_apply_last s.show_warnings p k v s.widgets
      (dictGet s.properties p) wl hlast hkv hp
    refine ⟨r2, ?_, hget⟩
    have hsp : ((save_properties s).1).properties =
        (saveLoop s.listeners s.show_warnings s.widgets s.properties).1 := by
      rw [save_properties, if_neg hnb]
    rw [hsp, hg]
    exact hr2
  · have hc := saveLoop_calls s.listeners s.show_warnings lid s.widgets
      s.properties hok2
    have hsum := sum_calls_eq_length s.listeners s.show_warnings p lid hcount
      hother s.widgets
    have hev : ((save_properties s).2.1) =
        (saveLoop s.listeners s.show_warnings s.widgets s.properties).2.1 := by
      rw [save_properties, if_neg hnb]
    rw [hev, hc, hsum]

/-- First widget linked to `"p"` in registry order. -/
def wSaveA : Widget :=
  { id := 1, wtype := WType.QLineEdit, prop := some "p",
    store := [("text", Val.str "a")], connected := true }

/-- Second (and last) widget linked to `"p"` in registry order. -/
def wSaveB : Widget :=
  { id := 2, wtype := WType.QLineEdit, prop := some "p",
    store := [("text", Val.str "b")], connected := true }

/-- Two widgets linked to `"p"` and one listener registered for `"p"`. -/
def sSaveC10 : ModelState :=
  { widgets := [wSaveA, wSaveB],
    properties := [("p", { name := "p" })],
    listeners := [("p", [5])] }

theorem C10_save_registry_order_witness :
    (∃ r2, dictGet ((save_properties sSaveC10).1).properties "p" = some r2 ∧
        r2.getattr_field "value" = Except.ok (Val.str "b")) ∧
    countCallsTo ((save_properties sSaveC10).2.1) 5 =
      (sSaveC10.widgets.filter fun w =>
        w.prop == some "p" &&
          (dictGet ((widget_values sSaveC10.show_warnings w).2) "value").isSome).length :=
  C10_save_registry_order sSaveC10 "p" 5 wSaveB "value" (Val.str "b")
    (by decide) (by decide) (by decide) (by decide) (by decide) (by decide)
    (by decide)

end Mvc
